import Mathlib

/-!
Verification of the admin-form-questions edge function and the
BulkAgentFormDialog form logic: a shallow embedding of the token
verifier (split, forgiving base64, JSON parsing, expiry comparison,
SHA-256 signature), of the request handler with its division-scope
check over an in-memory store model, and of the ward-option and
agent-submission computations, together with theorems settling the
stated behavioral claims.
-/

namespace Elife

/-- Code units of a Lean string (the JS strings in play are ASCII or
    latin-1 binary strings, whose UTF-16 code units equal the code points). -/
def strUnits (s : String) : List Nat := s.data.map Char.toNat

/-- JS `String.prototype.split` with the one-character separator `"."`:
    splits on every occurrence of the dot, keeping empty segments.
    Always returns a nonempty list. -/
def splitOnDot : List Char → List (List Char)
  | [] => [[]]
  | c :: rest =>
    match splitOnDot rest with
    | [] => [[c]]
    | h :: t => if c = '.' then [] :: h :: t else (c :: h) :: t

/-- UTF-8 encoding of one code point (as produced by `TextEncoder.encode`). -/
def utf8Char (c : Nat) : List Nat :=
  if c < 128 then [c]
  else if c < 2048 then [192 + c / 64, 128 + c % 64]
  else if c < 65536 then [224 + c / 4096, 128 + c / 64 % 64, 128 + c % 64]
  else [240 + c / 262144, 128 + c / 4096 % 64, 128 + c / 64 % 64, 128 + c % 64]

/-- UTF-8 encoding of a sequence of code points (`TextEncoder.encode`). -/
def utf8Encode (cs : List Nat) : List Nat := (cs.map utf8Char).flatten

/-- Lowercase hex digit for a value below 16. -/
def hexDigit (n : Nat) : Char :=
  if n < 10 then Char.ofNat (48 + n) else Char.ofNat (87 + n)

/-- `b.toString(16).padStart(2, "0")` for a byte value. -/
def hexByte (b : Nat) : List Char := [hexDigit (b / 16), hexDigit (b % 16)]

/-- Hex rendering of a byte list, two lowercase digits per byte. -/
def hexOfBytes (bs : List Nat) : List Char := (bs.map hexByte).flatten

/-! Part: Forgiving base64 decoding (`atob`) -/

/-- Value of one base64 alphabet character, or none for a non-alphabet one. -/
def b64Val (c : Char) : Option Nat :=
  let n := c.toNat
  if 65 ≤ n ∧ n ≤ 90 then some (n - 65)
  else if 97 ≤ n ∧ n ≤ 122 then some (n - 71)
  else if 48 ≤ n ∧ n ≤ 57 then some (n + 4)
  else if n = 43 then some 62
  else if n = 47 then some 63
  else none

/-- ASCII whitespace stripped by the forgiving base64 decoder. -/
def isB64Ws (c : Char) : Bool :=
  c.toNat = 9 ∨ c.toNat = 10 ∨ c.toNat = 12 ∨ c.toNat = 13 ∨ c.toNat = 32

/-- Drop one trailing `=` if present. -/
def dropOneEq (l : List Char) : List Char :=
  match l.reverse with
  | '=' :: rest => rest.reverse
  | _ => l

/-- Map base64 characters to 6-bit values, failing on a non-alphabet one. -/
def b64Vals : List Char → Except Unit (List Nat)
  | [] => .ok []
  | c :: rest =>
    match b64Val c, b64Vals rest with
    | some v, .ok vs => .ok (v :: vs)
    | _, _ => .error ()

/-- Reassemble bytes from 6-bit groups; a trailing group of 2 or 3 values
    yields 1 or 2 bytes, discarding the overhang bits. -/
def b64Bytes : List Nat → List Nat
  | v0 :: v1 :: v2 :: v3 :: rest =>
    (v0 * 4 + v1 / 16) :: (v1 % 16 * 16 + v2 / 4) :: (v2 % 4 * 64 + v3) :: b64Bytes rest
  | [v0, v1] => [v0 * 4 + v1 / 16]
  | [v0, v1, v2] => [v0 * 4 + v1 / 16, v1 % 16 * 16 + v2 / 4]
  | _ => []

/-- `atob`: the WHATWG forgiving-base64 decode.  Strips ASCII whitespace,
    removes up to two trailing `=` when the length is a multiple of four,
    errors on a leftover length of 1 mod 4 or any non-alphabet character,
    and discards overhang bits of a final partial group.  The result is the
    byte list of the decoded binary string. -/
def atobD (cs : List Char) : Except Unit (List Nat) :=
  let s1 := cs.filter (fun c => ¬ isB64Ws c)
  let s2 := if s1.length % 4 = 0 then dropOneEq (dropOneEq s1) else s1
  if s2.length % 4 = 1 then .error ()
  else (b64Vals s2).map b64Bytes

/-- Values produced by `JSON.parse`.  Numbers are restricted to integers:
    every numeral the token format carries (`exp` in epoch milliseconds) is
    an integer, and the integer grammar below is the corresponding subset of
    the JSON numeral grammar. -/
inductive Json where
  | null : Json
  | bool (b : Bool) : Json
  | num (n : Int) : Json
  | str (s : String) : Json
  | arr (elems : List Json) : Json
  | obj (members : List (String × Json)) : Json

/-- JSON whitespace skipping (space, tab, line feed, carriage return). -/
def jws (l : List Nat) : List Nat :=
  l.dropWhile (fun c => c == 32 || c == 9 || c == 10 || c == 13)

/-- Decimal digit value of a code unit, if it is one. -/
def digitVal (c : Nat) : Option Nat :=
  if 48 ≤ c ∧ c ≤ 57 then some (c - 48) else none

/-- Hex digit value of a code unit, if it is one. -/
def hexVal (c : Nat) : Option Nat :=
  if 48 ≤ c ∧ c ≤ 57 then some (c - 48)
  else if 97 ≤ c ∧ c ≤ 102 then some (c - 87)
  else if 65 ≤ c ∧ c ≤ 70 then some (c - 55)
  else none

/-- Body of a JSON string literal, after the opening quote: returns the
    code units of the string and the input after the closing quote.
    Control characters are rejected; the escape sequences of the JSON
    grammar (including `\uXXXX`) are interpreted. -/
def parseStrUnits : List Nat → Except Unit (List Nat × List Nat)
  | [] => .error ()
  | 34 :: rest => .ok ([], rest)
  | 92 :: rest =>
    match rest with
    | 34 :: r => (parseStrUnits r).map (fun (u, t) => (34 :: u, t))
    | 92 :: r => (parseStrUnits r).map (fun (u, t) => (92 :: u, t))
    | 47 :: r => (parseStrUnits r).map (fun (u, t) => (47 :: u, t))
    | 98 :: r => (parseStrUnits r).map (fun (u, t) => (8 :: u, t))
    | 102 :: r => (parseStrUnits r).map (fun (u, t) => (12 :: u, t))
    | 110 :: r => (parseStrUnits r).map (fun (u, t) => (10 :: u, t))
    | 114 :: r => (parseStrUnits r).map (fun (u, t) => (13 :: u, t))
    | 116 :: r => (parseStrUnits r).map (fun (u, t) => (9 :: u, t))
    | 117 :: h1 :: h2 :: h3 :: h4 :: r =>
      match hexVal h1, hexVal h2, hexVal h3, hexVal h4 with
      | some a, some b, some c, some d =>
        (parseStrUnits r).map (fun (u, t) => ((a * 4096 + b * 256 + c * 16 + d) :: u, t))
      | _, _, _, _ => .error ()
    | _ => .error ()
  | c :: rest =>
    if c < 32 then .error ()
    else (parseStrUnits rest).map (fun (u, t) => (c :: u, t))

/-- A parsed JSON string as a Lean string.  A `\u` escape denoting a lone
    surrogate has no scalar value; `Char.ofNat` maps it to the default
    character, a corner no credential of interest exercises. -/
def unitsToString (us : List Nat) : String := String.mk (us.map Char.ofNat)

/-- Leading digit run: value, number of digits, remaining input. -/
def parseDigits : List Nat → Nat → Nat → (Nat × Nat × List Nat)
  | c :: rest, acc, count =>
    match digitVal c with
    | some d => parseDigits rest (acc * 10 + d) (count + 1)
    | none => (acc, count, c :: rest)
  | [], acc, count => (acc, count, [])

/-- Integer JSON numeral: optional minus, then either a lone `0` or a
    digit run not starting with `0`.  A following `.`, `e` or `E`
    (the fraction/exponent forms, which are not integers) is rejected,
    matching the integer-only restriction documented on `Json.num`. -/
def parseIntNum (l : List Nat) : Except Unit (Int × List Nat) :=
  let (neg, l1) : Bool × List Nat :=
    match l with
    | 45 :: rest => (true, rest)
    | _ => (false, l)
  let leadZeroBad : Bool := match l1 with
    | 48 :: c2 :: _ => (digitVal c2).isSome
    | _ => false
  if leadZeroBad then .error ()
  else
    match parseDigits l1 0 0 with
    | (_, 0, _) => .error ()
    | (v, _, rest) =>
      match rest with
      | 46 :: _ => .error ()
      | 101 :: _ => .error ()
      | 69 :: _ => .error ()
      | _ => .ok (if neg then -(v : Int) else (v : Int), rest)

mutual

/-- One JSON value, recursion bounded by fuel (`2 * input length + 4`
    always suffices, since every recursive call consumes input). -/
def parseVal : Nat → List Nat → Except Unit (Json × List Nat)
  | 0, _ => .error ()
  | fuel + 1, l =>
    match jws l with
    | [] => .error ()
    | 34 :: rest => (parseStrUnits rest).map (fun (u, t) => (.str (unitsToString u), t))
    | 123 :: rest =>
      (match jws rest with
       | 125 :: r => .ok (.obj [], r)
       | r => parseMembers fuel [] r)
    | 91 :: rest =>
      (match jws rest with
       | 93 :: r => .ok (.arr [], r)
       | r => parseElems fuel [] r)
    | 116 :: 114 :: 117 :: 101 :: rest => .ok (.bool true, rest)
    | 102 :: 97 :: 108 :: 115 :: 101 :: rest => .ok (.bool false, rest)
    | 110 :: 117 :: 108 :: 108 :: rest => .ok (.null, rest)
    | l' => (parseIntNum l').map (fun (n, t) => (.num n, t))

/-- Object members after `{`, at a position expecting a key. -/
def parseMembers : Nat → List (String × Json) → List Nat → Except Unit (Json × List Nat)
  | 0, _, _ => .error ()
  | fuel + 1, acc, l =>
    match l with
    | 34 :: rest =>
      (match parseStrUnits rest with
       | .error _ => .error ()
       | .ok (ku, afterKey) =>
         match jws afterKey with
         | 58 :: afterColon =>
           (match parseVal fuel afterColon with
            | .error _ => .error ()
            | .ok (v, afterVal) =>
              let acc' := acc ++ [(unitsToString ku, v)]
              match jws afterVal with
              | 44 :: r => parseMembers fuel acc' (jws r)
              | 125 :: r => .ok (.obj acc', r)
              | _ => .error ())
         | _ => .error ())
    | _ => .error ()

/-- Array elements after `[`, at a position expecting a value. -/
def parseElems : Nat → List Json → List Nat → Except Unit (Json × List Nat)
  | 0, _, _ => .error ()
  | fuel + 1, acc, l =>
    match parseVal fuel l with
    | .error _ => .error ()
    | .ok (v, afterVal) =>
      let acc' := acc ++ [v]
      match jws afterVal with
      | 44 :: r => parseElems fuel acc' r
      | 93 :: r => .ok (.arr acc', r)
      | _ => .error ()

end

/-- `JSON.parse` over the code units of the decoded payload string:
    one value, surrounded only by whitespace. -/
def parseJson (units : List Nat) : Except Unit Json :=
  match parseVal (2 * units.length + 4) units with
  | .error _ => .error ()
  | .ok (v, rest) =>
    match jws rest with
    | [] => .ok v
    | _ => .error ()

/-- Property lookup on a JS object literal: a later duplicate key wins,
    as in the value built by `JSON.parse`. -/
def lookupLast (kvs : List (String × Json)) (k : String) : Option Json :=
  kvs.foldl (fun acc p => if p.1 = k then some p.2 else acc) none

/-- Property access `v[k]` on a non-null receiver (or after `?.`):
    objects look the key up, every other value yields `undefined` (`none`). -/
def jsGet (v : Json) (k : String) : Option Json :=
  match v with
  | .obj kvs => lookupLast kvs k
  | _ => none

/-- Plain property access `v.k`: throws (errors) on `null`, otherwise as
    `jsGet`. -/
def jsGetPropE (v : Json) (k : String) : Except Unit (Option Json) :=
  match v with
  | .null => .error ()
  | .obj kvs => .ok (lookupLast kvs k)
  | _ => .ok none

/-- `ToNumber` on a string (trim, empty is 0, signed decimal integer;
    anything else is NaN, i.e. `none` — non-integer numerals are outside
    the integer-only embedding). -/
def strToNumber (s : String) : Option Int :=
  let t := s.data.dropWhile (fun c => c.toNat = 9 ∨ c.toNat = 10 ∨ c.toNat = 11 ∨
    c.toNat = 12 ∨ c.toNat = 13 ∨ c.toNat = 32) |>.reverse.dropWhile
    (fun c => c.toNat = 9 ∨ c.toNat = 10 ∨ c.toNat = 11 ∨ c.toNat = 12 ∨
      c.toNat = 13 ∨ c.toNat = 32) |>.reverse
  match t with
  | [] => some 0
  | _ =>
    let (neg, ds) : Bool × List Char :=
      match t with
      | '-' :: rest => (true, rest)
      | '+' :: rest => (false, rest)
      | _ => (false, t)
    if ds = [] ∨ ds.any (fun c => ¬ (48 ≤ c.toNat ∧ c.toNat ≤ 57)) then none
    else
      let v : Nat := ds.foldl (fun acc c => acc * 10 + (c.toNat - 48)) 0
      some (if neg then -(v : Int) else (v : Int))

/-- The JS comparison `x < now` where `now` is a number and `x` is the
    (possibly absent) value of `payload.exp`: `undefined` and every value
    coercing to NaN compare false; `null`, booleans, numeric strings and
    the simple array coercions follow `ToPrimitive`/`ToNumber`. -/
def jsLtNum (x : Option Json) (now : Int) : Bool :=
  match x with
  | none => false
  | some .null => 0 < now
  | some (.bool b) => (if b then (1 : Int) else 0) < now
  | some (.num m) => m < now
  | some (.str s) =>
    match strToNumber s with
    | some m => m < now
    | none => false
  | some (.arr []) => 0 < now
  | some (.arr [.num m]) => m < now
  | some (.arr _) => false
  | some (.obj _) => false

/-! Part: SHA-256 (`crypto.subtle.digest("SHA-256", ...)`) -/

def M32 : Nat := 4294967296

def add32 (a b : Nat) : Nat := (a + b) % M32

/-- Rotate a 32-bit word right by `n` positions. -/
def rotr (n x : Nat) : Nat := (x >>> n) ||| ((x <<< (32 - n)) % M32)

def bsig0 (x : Nat) : Nat := rotr 2 x ^^^ rotr 13 x ^^^ rotr 22 x
def bsig1 (x : Nat) : Nat := rotr 6 x ^^^ rotr 11 x ^^^ rotr 25 x
def ssig0 (x : Nat) : Nat := rotr 7 x ^^^ rotr 18 x ^^^ (x >>> 3)
def ssig1 (x : Nat) : Nat := rotr 17 x ^^^ rotr 19 x ^^^ (x >>> 10)
def chF (e f g : Nat) : Nat := (e &&& f) ^^^ ((e ^^^ 4294967295) &&& g)
def majF (a b c : Nat) : Nat := (a &&& b) ^^^ (a &&& c) ^^^ (b &&& c)

/-- The 64 round constants of SHA-256 (FIPS 180-4), in decimal. -/
def shaK : List Nat := [
  1116352408, 1899447441, 3049323471, 3921009573, 961987163,
  1508970993, 2453635748, 2870763221, 3624381080, 310598401,
  607225278, 1426881987, 1925078388, 2162078206, 2614888103,
  3248222580, 3835390401, 4022224774, 264347078, 604807628,
  770255983, 1249150122, 1555081692, 1996064986, 2554220882,
  2821834349, 2952996808, 3210313671, 3336571891, 3584528711,
  113926993, 338241895, 666307205, 773529912, 1294757372,
  1396182291, 1695183700, 1986661051, 2177026350, 2456956037,
  2730485921, 2820302411, 3259730800, 3345764771, 3516065817,
  3600352804, 4094571909, 275423344, 430227734, 506948616,
  659060556, 883997877, 958139571, 1322822218, 1537002063,
  1747873779, 1955562222, 2024104815, 2227730452, 2361852424,
  2428436474, 2756734187, 3204031479, 3329325298]

structure Hash8 where
  a : Nat
  b : Nat
  c : Nat
  d : Nat
  e : Nat
  f : Nat
  g : Nat
  h : Nat

/-- The initial hash state of SHA-256, in decimal. -/
def shaH0 : Hash8 :=
  ⟨1779033703, 3144134277, 1013904242, 2773480762,
   1359893119, 2600822924, 528734635, 1541459225⟩

/-- One compression round for a `(constant, schedule word)` pair. -/
def roundStep (st : Hash8) (kw : Nat × Nat) : Hash8 :=
  let t1 := (st.h + bsig1 st.e + chF st.e st.f st.g + kw.1 + kw.2) % M32
  let t2 := (bsig0 st.a + majF st.a st.b st.c) % M32
  ⟨(t1 + t2) % M32, st.a, st.b, st.c, (st.d + t1) % M32, st.e, st.f, st.g⟩

def rounds : List (Nat × Nat) → Hash8 → Hash8
  | [], st => st
  | kw :: rest, st => rounds rest (roundStep st kw)

/-- Big-endian 32-bit words from bytes. -/
def toWords : List Nat → List Nat
  | b0 :: b1 :: b2 :: b3 :: rest => (b0 * 16777216 + b1 * 65536 + b2 * 256 + b3) :: toWords rest
  | _ => []

/-- Next message-schedule word from the ones produced so far. -/
def nextW (w : List Nat) : Nat :=
  let t := w.length
  (ssig1 (w.getD (t - 2) 0) + w.getD (t - 7) 0 + ssig0 (w.getD (t - 15) 0) + w.getD (t - 16) 0) % M32

/-- Extend 16 schedule words by `n` more. -/
def sched : Nat → List Nat → List Nat
  | 0, w => w
  | n + 1, w => sched n (w ++ [nextW w])

/-- 16-word blocks (fuel-bounded, fuel `length + 1` always suffices). -/
def chunk16 : Nat → List Nat → List (List Nat)
  | 0, _ => []
  | _ + 1, [] => []
  | fuel + 1, ws => ws.take 16 :: chunk16 fuel (ws.drop 16)

def compressBlock (st : Hash8) (block : List Nat) : Hash8 :=
  let w := sched 48 block
  let v := rounds (shaK.zip w) st
  ⟨add32 st.a v.a, add32 st.b v.b, add32 st.c v.c, add32 st.d v.d,
   add32 st.e v.e, add32 st.f v.f, add32 st.g v.g, add32 st.h v.h⟩

/-- Big-endian 64-bit byte rendering of the message bit length. -/
def be64 (n : Nat) : List Nat :=
  [n / 72057594037927936 % 256, n / 281474976710656 % 256, n / 1099511627776 % 256,
   n / 4294967296 % 256, n / 16777216 % 256, n / 65536 % 256, n / 256 % 256, n % 256]

/-- SHA-256 padding: `0x80`, zeros to 56 mod 64, 64-bit big-endian bit length. -/
def padMsg (msg : List Nat) : List Nat :=
  let L := msg.length
  let k := (64 + 55 - L % 64) % 64
  msg ++ 128 :: (List.replicate k 0 ++ be64 (8 * L))

/-- Big-endian bytes of a 32-bit word. -/
def be32 (x : Nat) : List Nat := [x / 16777216 % 256, x / 65536 % 256, x / 256 % 256, x % 256]

/-- SHA-256 digest (32 bytes) of a byte message. -/
def sha256 (msg : List Nat) : List Nat :=
  let ws := toWords (padMsg msg)
  let blocks := chunk16 (ws.length + 1) ws
  let fin := blocks.foldl compressBlock shaH0
  ([fin.a, fin.b, fin.c, fin.d, fin.e, fin.f, fin.g, fin.h].map be32).flatten

/-- The rejection taxonomy of the spec.  `verifyAdminToken` itself returns
    `null` on every rejection; which check fired is recorded here by the
    instrumented variant (the code distinguishes the paths only via its
    console messages and control flow). -/
inductive VReason where
  | malformed
  | expired
  | invalidSignature
deriving DecidableEq

/-- The pipeline of `verifyAdminToken` after the split: base64-decode,
    JSON-parse, read `payload.exp`, expiry check, digest comparison.
    Failures of `atob`, `JSON.parse`, or the property access throw in the
    source and are converted by its `catch` to a rejection (`malformed`). -/
def verifyParts (payloadBase64 signature : List Char) (serviceKey : String) (now : Int) :
    Except VReason Json :=
  match atobD payloadBase64 with
  | .error _ => .error .malformed
  | .ok tokenData =>
    match parseJson tokenData with
    | .error _ => .error .malformed
    | .ok payload =>
      match jsGetPropE payload "exp" with
      | .error _ => .error .malformed
      | .ok expVal =>
        if jsLtNum expVal now then .error .expired
        else
          let expectedSignature := hexOfBytes (sha256 (utf8Encode (tokenData ++ strUnits serviceKey)))
          if signature ≠ expectedSignature then .error .invalidSignature
          else .ok payload

/-- Instrumented `verifyAdminToken`: same control flow as the source, with
    each `return null` site tagged by the rejection reason of the spec.
    `token.split(".")` splits on every dot; the destructuring takes the
    first two segments, and `!payloadBase64 || !signature` rejects when
    either is empty or missing. -/
def verifyAdminTokenE (token serviceKey : String) (now : Int) : Except VReason Json :=
  if ((splitOnDot token.data).getD 0 []).isEmpty ∨ ((splitOnDot token.data).getD 1 []).isEmpty
  then .error .malformed
  else verifyParts ((splitOnDot token.data).getD 0 []) ((splitOnDot token.data).getD 1 [])
    serviceKey now

/-- `verifyAdminToken` as the source has it: `AdminTokenPayload | null`,
    collapsing every rejection to `none`.  `now` stands for `Date.now()`. -/
def verifyAdminToken (token serviceKey : String) (now : Int) : Option Json :=
  let parts := splitOnDot token.data
  let payloadBase64 := parts.getD 0 []
  let signature := parts.getD 1 []
  if payloadBase64.isEmpty ∨ signature.isEmpty then none
  else
    match atobD payloadBase64 with
    | .error _ => none
    | .ok tokenData =>
      match parseJson tokenData with
      | .error _ => none
      | .ok payload =>
        match jsGetPropE payload "exp" with
        | .error _ => none
        | .ok expVal =>
          if jsLtNum expVal now then none
          else
            let expectedSignature := hexOfBytes (sha256 (utf8Encode (tokenData ++ strUnits serviceKey)))
            if signature ≠ expectedSignature then none
            else some payload

/-- Split of a string at its FIRST dot, the whole remainder (further dots
    included) forming the second part.  This is the claimed split
    semantics, written from the wording of the spec for comparison with the
    split-on-every-dot destructuring of the source. -/
def breakAtFirstDot : List Char → Option (List Char × List Char)
  | [] => none
  | c :: rest =>
    if c = '.' then some ([], rest)
    else (breakAtFirstDot rest).map (fun p => (c :: p.1, p.2))

/-- Verifier following the claimed split semantics (first-dot split with
    the entire remainder as the signature part); the rest of the pipeline
    is that of the source. -/
def verifyFirstSplitSpec (token serviceKey : String) (now : Int) : Except VReason Json :=
  match breakAtFirstDot token.data with
  | none => .error .malformed
  | some (p, s) =>
    if p.isEmpty ∨ s.isEmpty then .error .malformed
    else verifyParts p s serviceKey now

/-- Is the verification result an acceptance? -/
def vIsOk : Except VReason Json → Bool
  | .ok _ => true
  | .error _ => false

/-- The rejection reason of a verification result, if any. -/
def vReasonOf : Except VReason Json → Option VReason
  | .ok _ => none
  | .error r => some r

/-! Part: The `serve` handler of `admin-form-questions`

The hosted store is modelled as in-memory tables with unique ids (the
primary keys of the store); `.single()` row lookups become `List.find?`.
Store operations themselves are modelled as always succeeding, so the
`error` branches that surface store failures verbatim are not reachable
in the model.  `freshId` stands for the id the store assigns to an
inserted row.  The request body arrives as an already-parsed JSON value
(`req.json()`); `Date.now()` is the `now` parameter. -/

structure Admin where
  id : String
  is_active : Bool
  division_id : String

structure Program where
  id : String
  division_id : String

structure Question where
  id : String
  program_id : String
  question_text : String
  question_type : String
  is_required : Bool
  options : Option Json
  sort_order : Int

structure Db where
  admins : List Admin
  programs : List Program
  questions : List Question

/-- Bodies of the JSON responses the handler produces. -/
inductive RBody where
  | errMsg (msg : String)
  | okList (questions : List Question)
  | okQuestion (question : Question)
  | okSimple

structure HResp where
  status : Nat
  body : RBody

/-- JS truthiness of a possibly absent JSON value. -/
def jsTruthy (v : Option Json) : Bool :=
  match v with
  | none => false
  | some .null => false
  | some (.bool b) => b
  | some (.num n) => n ≠ 0
  | some (.str s) => s ≠ ""
  | some (.arr _) => true
  | some (.obj _) => true

/-- `String(v)` for the JSON values at hand (`null` and `undefined` never
    reach this cast in the handler: they are filtered by `|| ""`). -/
def jsStringCast (v : Json) : String :=
  match v with
  | .null => "null"
  | .bool b => if b then "true" else "false"
  | .num n => toString n
  | .str s => s
  | .arr _ => ""
  | .obj _ => "[object Object]"

/-- `String(x || "")`: the empty string for a falsy value. -/
def jsStringCastD (v : Option Json) : String :=
  if jsTruthy v then
    match v with
    | some j => jsStringCast j
    | none => ""
  else ""

/-- `String(x || dflt)` with a (truthy) string default. -/
def jsStringCastDef (v : Option Json) (dflt : String) : String :=
  if jsTruthy v then
    match v with
    | some j => jsStringCast j
    | none => dflt
  else dflt

/-- `Number(x ?? 0)`: integer numbers pass through; `undefined`/`null` give
    0; booleans coerce; values coercing to NaN (and non-integer strings,
    outside the integer-only embedding) are represented as 0. -/
def jsNumberCastD (v : Option Json) : Int :=
  match v with
  | none => 0
  | some .null => 0
  | some (.bool b) => if b then 1 else 0
  | some (.num n) => n
  | some (.str s) => (strToNumber s).getD 0
  | some (.arr _) => 0
  | some (.obj _) => 0

/-- `String.prototype.trim`: strip leading and trailing whitespace.  The
    ASCII whitespace set covers every string this code base trims. -/
def isJsWs (c : Char) : Bool :=
  c.toNat = 9 ∨ c.toNat = 10 ∨ c.toNat = 11 ∨ c.toNat = 12 ∨ c.toNat = 13 ∨ c.toNat = 32

def jsTrim (s : String) : String :=
  String.mk (((s.data.dropWhile isJsWs).reverse.dropWhile isJsWs).reverse)

/-- `data?.k` — optional chaining: an absent or null `data` yields
    `undefined` without throwing. -/
def jsGetChain (dataVal : Option Json) (k : String) : Option Json :=
  match dataVal with
  | none => none
  | some .null => none
  | some j => jsGet j k

/-- Stable ascending ordering by `sort_order` (`.order("sort_order",
    { ascending: true })`), as insertion sort. -/
def insertBySortOrder (q : Question) : List Question → List Question
  | [] => [q]
  | r :: rest =>
    if r.sort_order ≤ q.sort_order then r :: insertBySortOrder q rest
    else q :: r :: rest

def orderBySortOrder : List Question → List Question
  | [] => []
  | q :: rest => insertBySortOrder q (orderBySortOrder rest)

/-- `verifyProgramAccess`: fetch the program and compare its division with
    the division of the admin; a missing program is a failed access. -/
def verifyProgramAccess (db : Db) (divisionId programId : String) : Bool :=
  match db.programs.find? (fun p => p.id = programId) with
  | none => false
  | some program => program.division_id = divisionId

def respond (status : Nat) (msg : String) (db : Db) : HResp × Db :=
  (⟨status, .errMsg msg⟩, db)

def scopeErr : String := "You can only manage questions for programs in your division"

/-- `case "list"`. -/
def listAction (db : Db) (divisionId : String) (dataVal : Option Json) : HResp × Db :=
  let programId := jsStringCastD (jsGetChain dataVal "program_id")
  if programId = "" then respond 400 "program_id is required" db
  else if ¬ verifyProgramAccess db divisionId programId then respond 403 scopeErr db
  else
    let questions := orderBySortOrder (db.questions.filter (fun q => q.program_id = programId))
    (⟨200, .okList questions⟩, db)

/-- `case "create"`. -/
def createAction (db : Db) (divisionId : String) (dataVal : Option Json) (freshId : String) :
    HResp × Db :=
  let programId := jsStringCastD (jsGetChain dataVal "program_id")
  if programId = "" then respond 400 "program_id is required" db
  else if ¬ verifyProgramAccess db divisionId programId then respond 403 scopeErr db
  else
    let questionText := jsTrim (jsStringCastD (jsGetChain dataVal "question_text"))
    let question : Question :=
      { id := freshId
        program_id := programId
        question_text := questionText
        question_type := jsStringCastDef (jsGetChain dataVal "question_type") "text"
        is_required := jsTruthy (jsGetChain dataVal "is_required")
        options := (match jsGetChain dataVal "options" with
                    | some Json.null => none
                    | v => v)
        sort_order := jsNumberCastD (jsGetChain dataVal "sort_order") }
    if questionText = "" then respond 400 "question_text is required" db
    else (⟨200, .okQuestion question⟩, { db with questions := db.questions ++ [question] })

/-- The update payload applied to a row: only the fields present
    (`!== undefined`) in `data` are replaced. -/
def applyUpdate (dataVal : Option Json) (q : Question) : Question :=
  { q with
    question_text := (match jsGetChain dataVal "question_text" with
                      | some v => jsTrim (jsStringCast v)
                      | none => q.question_text)
    question_type := (match jsGetChain dataVal "question_type" with
                      | some v => jsStringCast v
                      | none => q.question_type)
    is_required := (match jsGetChain dataVal "is_required" with
                    | some v => jsTruthy (some v)
                    | none => q.is_required)
    options := (match jsGetChain dataVal "options" with
                | some v => some v
                | none => q.options)
    sort_order := (match jsGetChain dataVal "sort_order" with
                   | some v => jsNumberCastD (some v)
                   | none => q.sort_order) }

/-- `case "update"`. -/
def updateAction (db : Db) (divisionId : String) (dataVal : Option Json) : HResp × Db :=
  let questionId := jsStringCastD (jsGetChain dataVal "id")
  if questionId = "" then respond 400 "id is required" db
  else
    match db.questions.find? (fun q => q.id = questionId) with
    | none => respond 404 "Question not found" db
    | some existing =>
      if ¬ verifyProgramAccess db divisionId existing.program_id then respond 403 scopeErr db
      else
        let updated := applyUpdate dataVal existing
        (⟨200, .okQuestion updated⟩,
         { db with questions := db.questions.map (fun q => if q.id = questionId then applyUpdate dataVal q else q) })

/-- `case "delete"`. -/
def deleteAction (db : Db) (divisionId : String) (dataVal : Option Json) : HResp × Db :=
  let questionId := jsStringCastD (jsGetChain dataVal "id")
  if questionId = "" then respond 400 "id is required" db
  else
    match db.questions.find? (fun q => q.id = questionId) with
    | none => respond 404 "Question not found" db
    | some existing =>
      if ¬ verifyProgramAccess db divisionId existing.program_id then respond 403 scopeErr db
      else
        (⟨200, .okSimple⟩,
         { db with questions := db.questions.filter (fun q => ¬ q.id = questionId) })

/-- `switch (action)`: only the four string actions are recognized. -/
def handleAction (db : Db) (divisionId : String) (actionVal : Option Json)
    (dataVal : Option Json) (freshId : String) : HResp × Db :=
  match actionVal with
  | some (.str a) =>
    if a = "list" then listAction db divisionId dataVal
    else if a = "create" then createAction db divisionId dataVal freshId
    else if a = "update" then updateAction db divisionId dataVal
    else if a = "delete" then deleteAction db divisionId dataVal
    else respond 400 "Invalid action" db
  | _ => respond 400 "Invalid action" db

/-- From the admin re-fetch on: look the admin up by the id carried in
    the verified payload, reject missing or inactive accounts with 401,
    then read the `action` and `data` of the body and dispatch.  Destructuring a
    null body throws, which the outer catch turns into the 500 response. -/
def handleAuthed (db : Db) (adminIdVal : Option Json) (body : Json) (freshId : String) :
    HResp × Db :=
  let adminRow : Option Admin :=
    match adminIdVal with
    | some (.str aid) => db.admins.find? (fun r => r.id = aid)
    | _ => none
  match adminRow with
  | none => respond 401 "Admin account not found or inactive" db
  | some admin =>
    if ¬ admin.is_active then respond 401 "Admin account not found or inactive" db
    else
      match body with
      | .null => respond 500 "Internal server error" db
      | _ =>
        let actionVal := jsGet body "action"
        let dataVal := jsGet body "data"
        if ¬ jsTruthy actionVal then respond 400 "Action is required" db
        else handleAction db admin.division_id actionVal dataVal freshId

/-- The request handler: missing `x-admin-token` header and failed token
    verification are the 401 authentication rejections; then the admin
    record is re-fetched and the action dispatched. -/
def handle (db : Db) (now : Int) (serviceKey : String) (adminToken : Option String)
    (body : Json) (freshId : String) : HResp × Db :=
  match adminToken with
  | none => respond 401 "Admin token required" db
  | some token =>
    match verifyAdminToken token serviceKey now with
    | none => respond 401 "Invalid or expired token" db
    | some adminPayload =>
      match jsGetPropE adminPayload "admin_id" with
      | .error _ => respond 500 "Internal server error" db
      | .ok adminIdVal => handleAuthed db adminIdVal body freshId

/-! Part: `BulkAgentFormDialog`: ward options and submitted agent rows -/

/-- A panchayath row as selected by the dialog (`id, name, ward`); the
    stored `ward` attribute is a nullable text column. -/
structure Panchayath where
  id : String
  name : String
  ward : Option String

/-- `parseInt(w, 10)`: skip leading whitespace, optional sign, then the
    leading run of decimal digits; NaN (`none`) when no digit follows. -/
def jsParseInt (w : String) : Option Int :=
  let t := w.data.dropWhile isJsWs
  let (neg, ds) : Bool × List Char :=
    match t with
    | '-' :: rest => (true, rest)
    | '+' :: rest => (false, rest)
    | _ => (false, t)
  let digits := ds.takeWhile (fun c => 48 ≤ c.toNat ∧ c.toNat ≤ 57)
  match digits with
  | [] => none
  | _ =>
    let v : Nat := digits.foldl (fun acc c => acc * 10 + (c.toNat - 48)) 0
    some (if neg then -(v : Int) else (v : Int))

/-- `Array.from({ length: n }, (_, i) => String(i + 1))`. -/
def wardSeq (n : Nat) : List String := (List.range n).map (fun i => toString (i + 1))

/-- The ward-option effect shared verbatim by the single and bulk forms:
    when a panchayath is selected and found, its truthy `ward` attribute is
    read as `parseInt(ward, 10)`; a parse to a positive count `n` yields
    the options `"1" .. "n"`, anything else yields no options. -/
def wardOptionsFor (selected : String) (panchayaths : List Panchayath) : List String :=
  if selected ≠ "" then
    match panchayaths.find? (fun p => p.id = selected) with
    | some p =>
      (match p.ward with
       | some w =>
         if w ≠ "" then
           (match jsParseInt w with
            | some n => if 0 < n then wardSeq n.toNat else []
            | none => [])
         else []
       | none => [])
    | none => []
  else []

inductive AgentRole where
  | team_leader
  | coordinator
  | group_leader
  | pro
deriving DecidableEq

/-- The single-agent form values after zod validation. -/
structure SingleAgentFormValues where
  name : String
  mobile : String
  role : AgentRole
  panchayath_id : String
  ward : String
  parent_agent_id : Option String
  customer_count : Int

/-- One row of the bulk form's agent array. -/
structure BulkAgentEntry where
  name : String
  mobile : String
  ward : String
  customer_count : Int

/-- The bulk form values after zod validation. -/
structure BulkAgentFormValues where
  panchayath_id : String
  role : AgentRole
  parent_agent_id : Option String
  agents : List BulkAgentEntry

/-- The agent row as persisted. -/
structure AgentRecord where
  name : String
  mobile : String
  role : AgentRole
  panchayath_id : String
  ward : String
  parent_agent_id : Option String
  customer_count : Int
  is_active : Bool
deriving DecidableEq

/-- The in-place mutations `onSubmitSingle` applies to `values` before
    persisting: team leaders get no parent, and only PROs keep a customer
    count. -/
def adjustSingleValues (v : SingleAgentFormValues) : SingleAgentFormValues :=
  let v1 := if v.role = .team_leader then { v with parent_agent_id := none } else v
  if v1.role ≠ .pro then { v1 with customer_count := 0 } else v1

/-- `values.parent_agent_id || null`: an empty id collapses to null. -/
def parentOrNull (p : Option String) : Option String :=
  match p with
  | some s => if s = "" then none else some s
  | none => none

/-- The `agentData` row inserted by the single-agent create path. -/
def singleInsertRecord (v : SingleAgentFormValues) : AgentRecord :=
  let u := adjustSingleValues v
  { name := u.name
    mobile := u.mobile
    role := u.role
    panchayath_id := u.panchayath_id
    ward := u.ward
    parent_agent_id := parentOrNull u.parent_agent_id
    customer_count := u.customer_count
    is_active := true }

/-- The `values` object sent by the single-agent edit path's `update`. -/
def singleUpdateValues (v : SingleAgentFormValues) : SingleAgentFormValues :=
  adjustSingleValues v

/-- The `agentsToInsert` rows built by `onSubmitBulk`: the shared role,
    panchayath and parent are combined with each row, a team-leader batch
    gets no parent, and a non-PRO batch gets `customer_count` 0. -/
def bulkInsertRecords (v : BulkAgentFormValues) : List AgentRecord :=
  let isPro := v.role = .pro
  let isTeamLeader := v.role = .team_leader
  v.agents.map (fun agent =>
    { name := agent.name
      mobile := agent.mobile
      role := v.role
      panchayath_id := v.panchayath_id
      ward := agent.ward
      parent_agent_id := if isTeamLeader then none else parentOrNull v.parent_agent_id
      customer_count := if isPro then agent.customer_count else 0
      is_active := true })

/-! Part: Concrete credentials for the checks below -/

/-- Modelled from the spec: the external token issuer of §6, which is not
    part of this repository (`base64(JSON{...}) + "." + hex(digest(decoded-JSON-string + secret))`).
    Standard padded base64 of one 6-bit group value. -/
def btoaChar (n : Nat) : Char :=
  if n < 26 then Char.ofNat (65 + n)
  else if n < 52 then Char.ofNat (97 + n - 26)
  else if n < 62 then Char.ofNat (48 + n - 52)
  else if n = 62 then '+' else '/'

/-- Modelled from the spec: base64 encoding of a byte list (the issuer form
    `base64(...)`). -/
def btoa3 : List Nat → List Char
  | b0 :: b1 :: b2 :: rest =>
    btoaChar (b0 / 4) :: btoaChar (b0 % 4 * 16 + b1 / 16) ::
      btoaChar (b1 % 16 * 4 + b2 / 64) :: btoaChar (b2 % 64) :: btoa3 rest
  | [b0, b1] => [btoaChar (b0 / 4), btoaChar (b0 % 4 * 16 + b1 / 16), btoaChar (b1 % 16 * 4), '=']
  | [b0] => [btoaChar (b0 / 4), btoaChar (b0 % 4 * 16), '=', '=']
  | [] => []

/-- Modelled from the spec: the issued credential
    `base64(payload) + "." + hex(digest(payload + secret))`. -/
def issueToken (payloadText serviceKey : String) : String :=
  (btoa3 (strUnits payloadText)).asString ++ "." ++
    (hexOfBytes (sha256 (utf8Encode (strUnits payloadText ++ strUnits serviceKey)))).asString

/-- A full well-formed payload (all four fields, `exp` 1). -/
def pTextA : String := "\x7b\"admin_id\":\"a\",\"user_id\":\"u\",\"division_id\":\"d\",\"exp\":1\x7d"

/-- A validly signed credential for `pTextA` under secret "k1", with the
    junk segment ".x" appended after the signature. -/
def tokTrailing : String := issueToken pTextA "k1" ++ ".x"

/-- A validly signed credential for `pTextA` under secret "k4". -/
def tokSound : String := issueToken pTextA "k4"

/-- `tokSound` with one bit of the first payload character flipped:
    'e' (0x65) becomes '%' (0x25), which is not a base64 character. -/
def tokFlipped : String := "%" ++ tokSound.drop 1

/-- A validly signed credential whose payload is the empty object. -/
def tokEmptyObj : String := issueToken "\x7b\x7d" "k5"

/-- A validly signed credential whose payload is `{"a":1}`. -/
def tokOneField : String := issueToken "\x7b\"a\":1\x7d" "kw5"

/-- Store contents for the scope-mismatch scenario: an active admin of
    division D1 and a program owned by division D2. -/
def dbScope : Db :=
  { admins := [⟨"a1", true, "D1"⟩]
    programs := [⟨"p1", "D2"⟩]
    questions := [⟨"q1", "p1", "Old", "text", false, none, 0⟩] }

/-- A valid credential for admin `a1` (secret "k7", `exp` 9). -/
def tokScope : String :=
  issueToken "\x7b\"admin_id\":\"a1\",\"user_id\":\"u1\",\"division_id\":\"D1\",\"exp\":9\x7d" "k7"

/-- The parsed payload of `tokScope`. -/
def payloadScope : Json :=
  .obj [("admin_id", .str "a1"), ("user_id", .str "u1"), ("division_id", .str "D1"), ("exp", .num 9)]

/-- `{ action: "list", data: { program_id: "p1" } }`. -/
def bodyListP1 : Json :=
  .obj [("action", .str "list"), ("data", .obj [("program_id", .str "p1")])]

/-- Store contents for the token-independence scenario. -/
def dbNine : Db :=
  { admins := [⟨"a9", true, "D1"⟩]
    programs := [⟨"p9", "D1"⟩]
    questions := [] }

/-- Valid credential for admin `a9` whose payload carries division DX. -/
def tokNineX : String :=
  issueToken "\x7b\"admin_id\":\"a9\",\"user_id\":\"u9\",\"division_id\":\"DX\",\"exp\":9\x7d" "k9"

/-- Valid credential for admin `a9`, identical except the payload carries
    division DY. -/
def tokNineY : String :=
  issueToken "\x7b\"admin_id\":\"a9\",\"user_id\":\"u9\",\"division_id\":\"DY\",\"exp\":9\x7d" "k9"

def payloadNineX : Json :=
  .obj [("admin_id", .str "a9"), ("user_id", .str "u9"), ("division_id", .str "DX"), ("exp", .num 9)]

def payloadNineY : Json :=
  .obj [("admin_id", .str "a9"), ("user_id", .str "u9"), ("division_id", .str "DY"), ("exp", .num 9)]

/-- The program whose division scopes a request, as the claim words it:
    for list and create, the program named by `data.program_id`; for
    update and delete, the owning program of the question named by
    `data.id`.  `none` when the id is missing/empty or no such row
    exists. -/
def scopedProgram (db : Db) (a : String) (dataVal : Option Json) : Option Program :=
  if a = "list" ∨ a = "create" then
    (if jsStringCastD (jsGetChain dataVal "program_id") = "" then none
     else db.programs.find? (fun p => p.id = jsStringCastD (jsGetChain dataVal "program_id")))
  else if a = "update" ∨ a = "delete" then
    (if jsStringCastD (jsGetChain dataVal "id") = "" then none
     else
       match db.questions.find? (fun q => q.id = jsStringCastD (jsGetChain dataVal "id")) with
       | none => none
       | some q => db.programs.find? (fun p => p.id = q.program_id))
  else none

/-- Panchayaths for the ward-option checks. -/
def psWard : List Panchayath :=
  [⟨"pw1", "Alpha", some "3"⟩, ⟨"pw2", "Beta", none⟩, ⟨"pw3", "Gamma", some "0"⟩,
   ⟨"pw4", "Delta", some "x"⟩]

/-- A non-PRO single-agent submission entering a nonzero customer count. -/
def singleValuesEx : SingleAgentFormValues :=
  ⟨"Name", "9999999999", .coordinator, "pw1", "2", some "parent", 7⟩

/-- A non-PRO bulk submission entering nonzero customer counts. -/
def bulkValuesEx : BulkAgentFormValues :=
  ⟨"pw1", .group_leader, some "parent", [⟨"N1", "8888888888", "1", 5⟩, ⟨"N2", "7777777777", "2", 6⟩]⟩

set_option maxRecDepth 1000000

/-- Auxiliary: emptiness of a character list as a Bool versus as an
    equation. -/
theorem isEmpty_true_iff (l : List Char) : l.isEmpty = true ↔ l = [] := by
  cases l <;> simp [List.isEmpty]

/-- Auxiliary: the Option-returning verifier agrees with the instrumented
    one, forgetting the reason. -/
theorem verify_eq_toOption (token serviceKey : String) (now : Int) :
    verifyAdminToken token serviceKey now = (verifyAdminTokenE token serviceKey now).toOption := by
  unfold verifyAdminToken verifyAdminTokenE verifyParts
  by_cases h : ((splitOnDot token.data).getD 0 []).isEmpty = true ∨
      ((splitOnDot token.data).getD 1 []).isEmpty = true
  · simp only [if_pos h]
    rfl
  · simp only [if_neg h]
    cases hA : atobD ((splitOnDot token.data).getD 0 []) with
    | error e => simp only [Except.toOption]
    | ok td =>
      simp only []
      cases hP : parseJson td with
      | error e => simp only [Except.toOption]
      | ok payload =>
        simp only []
        cases hG : jsGetPropE payload "exp" with
        | error e => simp only [Except.toOption]
        | ok expVal =>
          simp only []
          by_cases hexp : jsLtNum expVal now = true
          · simp only [if_pos hexp, Except.toOption]
          · simp only [if_neg hexp]
            by_cases hsig : (splitOnDot token.data).getD 1 [] ≠
                hexOfBytes (sha256 (utf8Encode (td ++ strUnits serviceKey)))
            · simp only [if_pos hsig, Except.toOption]
            · simp only [if_neg hsig, Except.toOption]

/-- Auxiliary: the emptiness guard of the verifier, failing side. -/
theorem verify_guard_neg (token : String)
    (h0 : (splitOnDot token.data).getD 0 [] ≠ [])
    (h1 : (splitOnDot token.data).getD 1 [] ≠ []) :
    ¬ (((splitOnDot token.data).getD 0 []).isEmpty = true ∨
       ((splitOnDot token.data).getD 1 []).isEmpty = true) := by
  intro hab
  cases hab with
  | inl ha => exact h0 ((isEmpty_true_iff _).mp ha)
  | inr hb => exact h1 ((isEmpty_true_iff _).mp hb)

/-- C1 counterexample: `tokTrailing` is a validly signed, unexpired
    credential followed by the junk segment ".x".  Were the signature part
    the entire remainder after the first dot, the comparison would fail
    (`verifyFirstSplitSpec` rejects with INVALID_SIGNATURE); the code
    instead compares only the segment between the first two dots and
    accepts. -/
theorem claim1_counterexample :
    vIsOk (verifyAdminTokenE tokTrailing "k1" 0) = true ∧
    vReasonOf (verifyFirstSplitSpec tokTrailing "k1" 0) = some .invalidSignature := by
  constructor
  · decide
  · decide

/-- C1 (amended): the credential is split on every dot; verification
    depends only on the first two segments (everything after a second dot
    is ignored), and an empty or missing first or second segment is
    rejected as MALFORMED. -/
theorem claim1_split_segments :
    (∀ (token serviceKey : String) (now : Int),
      ((splitOnDot token.data).getD 0 [] = [] ∨ (splitOnDot token.data).getD 1 [] = []) →
      verifyAdminTokenE token serviceKey now = .error .malformed) ∧
    (∀ (t1 t2 serviceKey : String) (now : Int),
      (splitOnDot t1.data).getD 0 [] = (splitOnDot t2.data).getD 0 [] →
      (splitOnDot t1.data).getD 1 [] = (splitOnDot t2.data).getD 1 [] →
      verifyAdminTokenE t1 serviceKey now = verifyAdminTokenE t2 serviceKey now) := by
  constructor
  · intro token serviceKey now h
    unfold verifyAdminTokenE
    rw [if_pos (h.imp (fun ha => (isEmpty_true_iff _).mpr ha) (fun hb => (isEmpty_true_iff _).mpr hb))]
  · intro t1 t2 serviceKey now h0 h1
    unfold verifyAdminTokenE
    rw [h0, h1]

/-- C1 witness: a dotless string is malformed, and two credentials
    agreeing on their first two dot-separated segments verify alike. -/
theorem claim1_split_segments_witness :
    verifyAdminTokenE "abc" "kw1" 0 = .error .malformed ∧
    verifyAdminTokenE "a.b.c" "kw1" 0 = verifyAdminTokenE "a.b.zzz" "kw1" 0 := by
  constructor
  · exact claim1_split_segments.1 "abc" "kw1" 0 (Or.inr (by decide))
  · exact claim1_split_segments.2 "a.b.c" "a.b.zzz" "kw1" 0 (by decide) (by decide)

/-- C2 counterexample: the malformed credential "" and the expired
    credential (payload with `exp` 0 at instant 5) take different rejection
    paths, yet the verifier returns the same undifferentiated `null` for
    both: the rejection reason is not observable in the returned value. -/
theorem claim2_counterexample :
    vReasonOf (verifyAdminTokenE "" "k2" 5) = some .malformed ∧
    vReasonOf (verifyAdminTokenE "eyJleHAiOjB9.x" "k2" 5) = some .expired ∧
    (verifyAdminToken "" "k2" 5).isNone = true ∧
    (verifyAdminToken "eyJleHAiOjB9.x" "k2" 5).isNone = true := by
  exact ⟨by decide, by decide, by decide, by decide⟩

/-- C2 (amended): the verifier returns either the parsed payload or the
    single failure value `null`; the three rejection paths are
    distinguished internally (by which check fired) but every one of them
    yields the same returned value `none`. -/
theorem claim2_null_rejection :
    ∀ (token serviceKey : String) (now : Int) (r : VReason),
      verifyAdminTokenE token serviceKey now = .error r →
      verifyAdminToken token serviceKey now = none := by
  intro token serviceKey now r h
  rw [verify_eq_toOption, h]
  rfl

/-- C2 witness: a dotless credential rejects with the null value. -/
theorem claim2_null_rejection_witness : verifyAdminToken "zz" "kw2" 0 = none :=
  claim2_null_rejection "zz" "kw2" 0 .malformed rfl

/-- C3: when the payload decodes and parses, an `exp` strictly below the
    current instant rejects as EXPIRED no matter what the signature part
    is, and an `exp` equal to the current instant passes the expiry check
    (the result is never EXPIRED). -/
theorem claim3_expiry_strict :
    (∀ (token serviceKey : String) (now : Int) (td : List Nat) (payload : Json)
        (expVal : Option Json),
      (splitOnDot token.data).getD 0 [] ≠ [] →
      (splitOnDot token.data).getD 1 [] ≠ [] →
      atobD ((splitOnDot token.data).getD 0 []) = .ok td →
      parseJson td = .ok payload →
      jsGetPropE payload "exp" = .ok expVal →
      jsLtNum expVal now = true →
      verifyAdminTokenE token serviceKey now = .error .expired) ∧
    (∀ (token serviceKey : String) (now : Int) (td : List Nat) (payload : Json),
      (splitOnDot token.data).getD 0 [] ≠ [] →
      (splitOnDot token.data).getD 1 [] ≠ [] →
      atobD ((splitOnDot token.data).getD 0 []) = .ok td →
      parseJson td = .ok payload →
      jsGetPropE payload "exp" = .ok (some (.num now)) →
      verifyAdminTokenE token serviceKey now ≠ .error .expired) := by
  constructor
  · intro token serviceKey now td payload expVal h0 h1 hA hP hG hlt
    unfold verifyAdminTokenE
    rw [if_neg (verify_guard_neg token h0 h1)]
    unfold verifyParts
    simp only [hA, hP, hG]
    simp only [if_pos hlt]
  · intro token serviceKey now td payload h0 h1 hA hP hG
    unfold verifyAdminTokenE
    rw [if_neg (verify_guard_neg token h0 h1)]
    unfold verifyParts
    simp only [hA, hP, hG]
    have hlt : jsLtNum (some (.num now)) now = false := by
      simp [jsLtNum]
    simp only [hlt, Bool.false_eq_true, if_false]
    intro hcontra
    revert hcontra
    split
    · intro hcontra
      injection hcontra with h2
      exact VReason.noConfusion h2
    · intro hcontra
      injection hcontra

/-- C3 witness: a payload with `exp` 3 rejects as EXPIRED at instant 7
    even with a junk signature, and is not EXPIRED at instant 3 exactly. -/
theorem claim3_expiry_strict_witness :
    verifyAdminTokenE "eyJleHAiOjN9.x" "kw3" 7 = .error .expired ∧
    verifyAdminTokenE "eyJleHAiOjN9.x" "kw3" 3 ≠ .error .expired := by
  constructor
  · exact claim3_expiry_strict.1 "eyJleHAiOjN9.x" "kw3" 7 (strUnits "\x7b\"exp\":3\x7d")
      (.obj [("exp", .num 3)]) (some (.num 3)) (by decide) (by decide) rfl rfl rfl
      (by decide)
  · exact claim3_expiry_strict.2 "eyJleHAiOjN9.x" "kw3" 3 (strUnits "\x7b\"exp\":3\x7d")
      (.obj [("exp", .num 3)]) (by decide) (by decide) rfl rfl rfl

/-- C4 counterexample: `tokSound` is a validly constructed (correctly
    signed, unexpired) credential whose payload segment starts with the
    character e (0x65).  Flipping one bit (bit 6) of that character gives
    the non-base64 character percent (0x25); on the flipped credential
    `tokFlipped` the base64 decode throws, so verification rejects with
    MALFORMED, not INVALID_SIGNATURE. -/
theorem claim4_counterexample :
    vIsOk (verifyAdminTokenE tokSound "k4" 0) = true ∧
    tokSound.data.head? = some 'e' ∧
    tokFlipped.data.head? = some '%' ∧
    tokFlipped.data.tail = tokSound.data.tail ∧
    Nat.xor (Char.toNat 'e') (Char.toNat '%') = 2 ^ 6 ∧
    vReasonOf (verifyAdminTokenE tokFlipped "k4" 0) = some .malformed := by
  exact ⟨by decide, by decide, by decide, by decide, by decide, by decide⟩

/-- C4 (amended): a payload alteration that leaves the segment decodable
    and parsable with a passing expiry check but a digest differing from
    the unchanged signature part rejects with INVALID_SIGNATURE; an
    alteration that breaks the base64 decoding rejects with MALFORMED
    instead (and never with acceptance through those paths). -/
theorem claim4_signature_binding :
    (∀ (token serviceKey : String) (now : Int) (td : List Nat) (payload : Json)
        (expVal : Option Json),
      (splitOnDot token.data).getD 0 [] ≠ [] →
      (splitOnDot token.data).getD 1 [] ≠ [] →
      atobD ((splitOnDot token.data).getD 0 []) = .ok td →
      parseJson td = .ok payload →
      jsGetPropE payload "exp" = .ok expVal →
      jsLtNum expVal now = false →
      (splitOnDot token.data).getD 1 [] ≠
        hexOfBytes (sha256 (utf8Encode (td ++ strUnits serviceKey))) →
      verifyAdminTokenE token serviceKey now = .error .invalidSignature) ∧
    (∀ (token serviceKey : String) (now : Int),
      (splitOnDot token.data).getD 0 [] ≠ [] →
      (splitOnDot token.data).getD 1 [] ≠ [] →
      atobD ((splitOnDot token.data).getD 0 []) = .error () →
      verifyAdminTokenE token serviceKey now = .error .malformed) := by
  constructor
  · intro token serviceKey now td payload expVal h0 h1 hA hP hG hexp hsig
    unfold verifyAdminTokenE
    rw [if_neg (verify_guard_neg token h0 h1)]
    unfold verifyParts
    simp only [hA, hP, hG, hexp, Bool.false_eq_true, if_false]
    rw [if_pos hsig]
  · intro token serviceKey now h0 h1 hA
    unfold verifyAdminTokenE
    rw [if_neg (verify_guard_neg token h0 h1)]
    unfold verifyParts
    simp only [hA]

/-- C4 witness: a structurally fine, unexpired credential with the junk
    signature "ff" rejects with INVALID_SIGNATURE, and one with an
    undecodable payload segment rejects with MALFORMED. -/
theorem claim4_signature_binding_witness :
    verifyAdminTokenE "eyJleHAiOjN9.ff" "kw4" 0 = .error .invalidSignature ∧
    verifyAdminTokenE "%%.x" "kw4" 0 = .error .malformed := by
  constructor
  · exact claim4_signature_binding.1 "eyJleHAiOjN9.ff" "kw4" 0 (strUnits "\x7b\"exp\":3\x7d")
      (.obj [("exp", .num 3)]) (some (.num 3)) (by decide) (by decide) rfl rfl rfl
      (by decide) (by decide)
  · exact claim4_signature_binding.2 "%%.x" "kw4" 0 (by decide) (by decide) rfl

/-- C5 counterexample: `tokEmptyObj` carries the payload text of an empty
    JSON object, correctly signed and with no `exp` field (so the expiry
    comparison is false); every required field is missing, yet
    verification succeeds and returns the empty record instead of
    rejecting with MALFORMED. -/
theorem claim5_counterexample :
    verifyAdminToken tokEmptyObj "k5" 99999 = some (Json.obj []) ∧
    jsGet (Json.obj []) "admin_id" = none ∧
    jsGet (Json.obj []) "user_id" = none ∧
    jsGet (Json.obj []) "division_id" = none ∧
    jsGet (Json.obj []) "exp" = none := by
  exact ⟨rfl, rfl, rfl, rfl, rfl⟩

/-- C5 (amended): the verifier performs no field validation after
    `JSON.parse`: any payload that decodes and parses, passes the expiry
    comparison and carries the matching signature is returned as-is,
    whether or not the required fields are present and well-typed. -/
theorem claim5_no_field_validation :
    ∀ (token serviceKey : String) (now : Int) (td : List Nat) (payload : Json)
      (expVal : Option Json),
      (splitOnDot token.data).getD 0 [] ≠ [] →
      (splitOnDot token.data).getD 1 [] ≠ [] →
      atobD ((splitOnDot token.data).getD 0 []) = .ok td →
      parseJson td = .ok payload →
      jsGetPropE payload "exp" = .ok expVal →
      jsLtNum expVal now = false →
      (splitOnDot token.data).getD 1 [] =
        hexOfBytes (sha256 (utf8Encode (td ++ strUnits serviceKey))) →
      verifyAdminTokenE token serviceKey now = .ok payload := by
  intro token serviceKey now td payload expVal h0 h1 hA hP hG hexp hsig
  unfold verifyAdminTokenE
  rw [if_neg (verify_guard_neg token h0 h1)]
  unfold verifyParts
  simp only [hA, hP, hG, hexp, Bool.false_eq_true, if_false]
  rw [if_neg (by intro hne; exact hne hsig)]

/-- C5 witness: the one-field payload (no admin_id, user_id, division_id
    or exp) is accepted when correctly signed. -/
theorem claim5_no_field_validation_witness :
    verifyAdminTokenE tokOneField "kw5" 0 = .ok (Json.obj [("a", Json.num 1)]) := by
  exact claim5_no_field_validation tokOneField "kw5" 0 (strUnits "\x7b\"a\":1\x7d")
    (.obj [("a", .num 1)]) none (by decide) (by decide) rfl rfl rfl rfl rfl

/-- C6: the verifier is a total function of its inputs that never throws
    past its boundary: it returns the parsed payload or `null`, and every
    internal failure path (split guard, base64 decode, JSON parse,
    property access, expiry, signature) yields the rejection recorded by
    the instrumented verifier, forgetting the reason into `null`. -/
theorem claim6_total_conversion :
    ∀ (token serviceKey : String) (now : Int),
      verifyAdminToken token serviceKey now = (verifyAdminTokenE token serviceKey now).toOption :=
  verify_eq_toOption

/-- Auxiliary: a program row of the wrong division fails the access
    check. -/
theorem vpa_false (db : Db) (divisionId programId : String) (prog : Program)
    (hfind : db.programs.find? (fun p => p.id = programId) = some prog)
    (hneq : prog.division_id ≠ divisionId) :
    verifyProgramAccess db divisionId programId = false := by
  unfold verifyProgramAccess
  simp only [hfind]
  exact decide_eq_false hneq

/-- Auxiliary: each recognized action answers a division mismatch with the
    403 scope response and leaves the store unchanged. -/
theorem handleAction_403 (db : Db) (divisionId : String) (a : String)
    (dataVal : Option Json) (freshId : String) (prog : Program)
    (hFour : a = "list" ∨ a = "create" ∨ a = "update" ∨ a = "delete")
    (hscope : scopedProgram db a dataVal = some prog)
    (hneq : prog.division_id ≠ divisionId) :
    handleAction db divisionId (some (.str a)) dataVal freshId =
      (⟨403, .errMsg scopeErr⟩, db) := by
  cases hFour with
  | inl ha =>
    subst ha
    unfold scopedProgram at hscope
    rw [if_pos (Or.inl rfl)] at hscope
    by_cases hpid : jsStringCastD (jsGetChain dataVal "program_id") = ""
    · rw [if_pos hpid] at hscope
      cases hscope
    · rw [if_neg hpid] at hscope
      simp only [handleAction, listAction]
      rw [if_neg hpid, vpa_false db divisionId _ prog hscope hneq]
      simp [respond]
  | inr h3 =>
  cases h3 with
  | inl ha =>
    subst ha
    unfold scopedProgram at hscope
    rw [if_pos (Or.inr rfl)] at hscope
    by_cases hpid : jsStringCastD (jsGetChain dataVal "program_id") = ""
    · rw [if_pos hpid] at hscope
      cases hscope
    · rw [if_neg hpid] at hscope
      simp only [handleAction, createAction]
      rw [if_neg hpid, vpa_false db divisionId _ prog hscope hneq]
      simp [respond]
  | inr h2 =>
  cases h2 with
  | inl ha =>
    subst ha
    unfold scopedProgram at hscope
    rw [if_neg (by decide)] at hscope
    rw [if_pos (Or.inl rfl)] at hscope
    by_cases hqid : jsStringCastD (jsGetChain dataVal "id") = ""
    · rw [if_pos hqid] at hscope
      cases hscope
    · rw [if_neg hqid] at hscope
      cases hq : db.questions.find? (fun q => q.id = jsStringCastD (jsGetChain dataVal "id")) with
      | none =>
        rw [hq] at hscope
        cases hscope
      | some q =>
        rw [hq] at hscope
        simp only [handleAction, updateAction]
        rw [if_neg hqid]
        simp only [hq]
        rw [vpa_false db divisionId _ prog hscope hneq]
        simp [respond]
  | inr ha =>
    subst ha
    unfold scopedProgram at hscope
    rw [if_neg (by decide)] at hscope
    rw [if_pos (Or.inr rfl)] at hscope
    by_cases hqid : jsStringCastD (jsGetChain dataVal "id") = ""
    · rw [if_pos hqid] at hscope
      cases hscope
    · rw [if_neg hqid] at hscope
      cases hq : db.questions.find? (fun q => q.id = jsStringCastD (jsGetChain dataVal "id")) with
      | none =>
        rw [hq] at hscope
        cases hscope
      | some q =>
        rw [hq] at hscope
        simp only [handleAction, deleteAction]
        rw [if_neg hqid]
        simp only [hq]
        rw [vpa_false db divisionId _ prog hscope hneq]
        simp [respond]

/-- C7: for every recognized action by an authenticated, active admin on a
    form question whose owning program belongs to another division, the
    handler answers 403 (the scope error, distinct from the 401
    authentication responses) and the store is unchanged: the requested
    read returns nothing and the mutation is not performed. -/
theorem claim7_scope_mismatch :
    ∀ (db : Db) (now : Int) (serviceKey token : String) (body : Json) (freshId : String)
      (payload : Json) (aid : String) (admin : Admin) (a : String) (prog : Program),
      verifyAdminToken token serviceKey now = some payload →
      jsGetPropE payload "admin_id" = .ok (some (.str aid)) →
      db.admins.find? (fun r => r.id = aid) = some admin →
      admin.is_active = true →
      jsGet body "action" = some (.str a) →
      (a = "list" ∨ a = "create" ∨ a = "update" ∨ a = "delete") →
      scopedProgram db a (jsGet body "data") = some prog →
      prog.division_id ≠ admin.division_id →
      (handle db now serviceKey (some token) body freshId).1.status = 403 ∧
      (handle db now serviceKey (some token) body freshId).2 = db := by
  intro db now serviceKey token body freshId payload aid admin a prog hV hProp hFind hAct
    hAction hFour hScope hNeq
  have hbody : ∃ kvs, body = Json.obj kvs := by
    cases body with
    | obj kvs => exact ⟨kvs, rfl⟩
    | null => simp [jsGet] at hAction
    | bool b => simp [jsGet] at hAction
    | num n => simp [jsGet] at hAction
    | str s => simp [jsGet] at hAction
    | arr es => simp [jsGet] at hAction
  cases hbody with
  | intro kvs hk =>
  subst hk
  have hane : a ≠ "" := by
    cases hFour with
    | inl h => subst h; decide
    | inr h3 =>
      cases h3 with
      | inl h => subst h; decide
      | inr h2 =>
        cases h2 with
        | inl h => subst h; decide
        | inr h => subst h; decide
  have htruthy : jsTruthy (some (.str a)) = true := by
    simp [jsTruthy, hane]
  have hhandle : handle db now serviceKey (some token) (Json.obj kvs) freshId =
      (⟨403, .errMsg scopeErr⟩, db) := by
    unfold handle
    simp only [hV, hProp]
    unfold handleAuthed
    simp only [hFind, hAct, hAction, htruthy]
    exact handleAction_403 db admin.division_id a (jsGet (Json.obj kvs) "data") freshId prog
      hFour hScope hNeq
  rw [hhandle]
  exact ⟨rfl, rfl⟩

/-- C7 witness: an active admin of division D1 requesting the list of
    questions of a program owned by division D2 receives 403 and the store
    is untouched. -/
theorem claim7_scope_mismatch_witness :
    (handle dbScope 5 "k7" (some tokScope) bodyListP1 "f1").1.status = 403 ∧
    (handle dbScope 5 "k7" (some tokScope) bodyListP1 "f1").2 = dbScope :=
  claim7_scope_mismatch dbScope 5 "k7" tokScope bodyListP1 "f1" payloadScope "a1"
    ⟨"a1", true, "D1"⟩ "list" ⟨"p1", "D2"⟩ rfl rfl rfl rfl rfl (Or.inl rfl) rfl (by decide)

/-- C9: the handler outcome depends on the verified payload only through
    its `admin_id`: two credentials that both verify and agree on the
    payload `admin_id` produce identical responses and stores, whatever
    else (in particular the `division_id`) their payloads carry; the
    division used for authorization is re-fetched from the admins table. -/
theorem claim9_token_division_irrelevant :
    ∀ (db : Db) (now : Int) (serviceKey t1 t2 : String) (body : Json) (freshId : String)
      (p1 p2 : Json),
      verifyAdminToken t1 serviceKey now = some p1 →
      verifyAdminToken t2 serviceKey now = some p2 →
      jsGetPropE p1 "admin_id" = jsGetPropE p2 "admin_id" →
      handle db now serviceKey (some t1) body freshId =
        handle db now serviceKey (some t2) body freshId := by
  intro db now serviceKey t1 t2 body freshId p1 p2 h1 h2 h3
  unfold handle
  simp only [h1, h2, h3]

/-- C9 witness: two validly signed, unexpired credentials for admin `a9`
    differing only in the payload `division_id` (DX versus DY) lead the
    handler to the same outcome. -/
theorem claim9_token_division_irrelevant_witness :
    handle dbNine 5 "k9" (some tokNineX) bodyListP1 "f9" =
      handle dbNine 5 "k9" (some tokNineY) bodyListP1 "f9" :=
  claim9_token_division_irrelevant dbNine 5 "k9" tokNineX tokNineY bodyListP1 "f9"
    payloadNineX payloadNineY rfl rfl rfl

/-- C8: for a selected panchayath found in the loaded list, the ward
    options are exactly the strings "1" .. "n" when the stored ward
    attribute parses (as `parseInt`) to a positive count `n`; an absent
    attribute, a non-numeric attribute or a non-positive count yields an
    empty option list. -/
theorem claim8_ward_options :
    (∀ (selected : String) (ps : List Panchayath) (p : Panchayath) (w : String) (n : Int),
      selected ≠ "" →
      ps.find? (fun q => q.id = selected) = some p →
      p.ward = some w →
      jsParseInt w = some n →
      0 < n →
      wardOptionsFor selected ps = (List.range n.toNat).map (fun i => toString (i + 1))) ∧
    (∀ (selected : String) (ps : List Panchayath) (p : Panchayath),
      selected ≠ "" →
      ps.find? (fun q => q.id = selected) = some p →
      p.ward = none →
      wardOptionsFor selected ps = []) ∧
    (∀ (selected : String) (ps : List Panchayath) (p : Panchayath) (w : String),
      selected ≠ "" →
      ps.find? (fun q => q.id = selected) = some p →
      p.ward = some w →
      (jsParseInt w = none ∨ ∃ n, jsParseInt w = some n ∧ n ≤ 0) →
      wardOptionsFor selected ps = []) := by
  refine ⟨?_, ?_, ?_⟩
  · intro selected ps p w n hsel hfind hward hparse hpos
    have hw : w ≠ "" := by
      intro he
      subst he
      rw [show jsParseInt "" = none from rfl] at hparse
      cases hparse
    unfold wardOptionsFor
    rw [if_pos hsel]
    simp only [hfind, hward]
    rw [if_pos hw]
    simp only [hparse]
    rw [if_pos hpos]
    rfl
  · intro selected ps p hsel hfind hward
    unfold wardOptionsFor
    rw [if_pos hsel]
    simp only [hfind, hward]
  · intro selected ps p w hsel hfind hward hbad
    unfold wardOptionsFor
    rw [if_pos hsel]
    simp only [hfind, hward]
    by_cases hw : w = ""
    · rw [if_neg (by intro hne; exact hne hw)]
    · rw [if_pos hw]
      cases hbad with
      | inl hn => simp only [hn]
      | inr hp =>
        cases hp with
        | intro n hn =>
          simp only [hn.1]
          rw [if_neg (Int.not_lt.mpr hn.2)]

/-- C8 witness: ward attribute "3" yields the options 1, 2, 3; an absent
    attribute, the attribute "0" and the attribute "x" yield none. -/
theorem claim8_ward_options_witness :
    wardOptionsFor "pw1" psWard = ["1", "2", "3"] ∧
    wardOptionsFor "pw2" psWard = [] ∧
    wardOptionsFor "pw3" psWard = [] ∧
    wardOptionsFor "pw4" psWard = [] := by
  refine ⟨?_, ?_, ?_, ?_⟩
  · rw [claim8_ward_options.1 "pw1" psWard ⟨"pw1", "Alpha", some "3"⟩ "3" 3 (by decide) rfl rfl
      rfl (by decide)]
    decide
  · exact claim8_ward_options.2.1 "pw2" psWard ⟨"pw2", "Beta", none⟩ (by decide) rfl rfl
  · exact claim8_ward_options.2.2 "pw3" psWard ⟨"pw3", "Gamma", some "0"⟩ "0" (by decide) rfl rfl
      (Or.inr ⟨0, rfl, by decide⟩)
  · exact claim8_ward_options.2.2 "pw4" psWard ⟨"pw4", "Delta", some "x"⟩ "x" (by decide) rfl rfl
      (Or.inl rfl)

/-- C10: every agent row submitted through the form is persisted with
    `customer_count` 0 whenever its role is not PRO — on the single-agent
    insert path, the single-agent update path, and every element of a bulk
    insert — regardless of the count entered in the form. -/
theorem claim10_nonpro_customer_count_zero :
    (∀ v : SingleAgentFormValues, v.role ≠ .pro → (singleInsertRecord v).customer_count = 0) ∧
    (∀ v : SingleAgentFormValues, v.role ≠ .pro → (singleUpdateValues v).customer_count = 0) ∧
    (∀ (v : BulkAgentFormValues) (r : AgentRecord),
      v.role ≠ .pro → r ∈ bulkInsertRecords v → r.customer_count = 0) := by
  refine ⟨?_, ?_, ?_⟩
  · intro v h
    unfold singleInsertRecord adjustSingleValues
    by_cases ht : v.role = .team_leader <;> simp [ht, h]
  · intro v h
    unfold singleUpdateValues adjustSingleValues
    by_cases ht : v.role = .team_leader <;> simp [ht, h]
  · intro v r h hr
    unfold bulkInsertRecords at hr
    rw [List.mem_map] at hr
    cases hr with
    | intro agent ha =>
      cases ha with
      | intro hmem heq =>
        subst heq
        simp [h]

/-- C10 witness: a coordinator entered with count 7 is inserted and
    updated with count 0, and the first row of a group-leader bulk batch
    entered with count 5 is inserted with count 0. -/
theorem claim10_nonpro_customer_count_zero_witness :
    (singleInsertRecord singleValuesEx).customer_count = 0 ∧
    (singleUpdateValues singleValuesEx).customer_count = 0 ∧
    (⟨"N1", "8888888888", .group_leader, "pw1", "1", some "parent", 0, true⟩ : AgentRecord)
      ∈ bulkInsertRecords bulkValuesEx ∧
    (⟨"N1", "8888888888", .group_leader, "pw1", "1", some "parent", 0, true⟩ : AgentRecord).customer_count = 0 := by
  refine ⟨?_, ?_, ?_, ?_⟩
  · exact claim10_nonpro_customer_count_zero.1 singleValuesEx (by decide)
  · exact claim10_nonpro_customer_count_zero.2.1 singleValuesEx (by decide)
  · decide
  · exact claim10_nonpro_customer_count_zero.2.2 bulkValuesEx _ (by decide) (by decide)

end Elife
